import Mathlib

namespace OAuthSupport

/-- JSON values, modelling data parsed from credential and token files
(`JSON.parse` results in `OAuthTokenManager.ts`). -/
inductive Json where
  | null : Json
  | bool (b : Bool) : Json
  | num (n : Int) : Json
  | str (s : String) : Json
  | arr (elems : List Json) : Json
  | obj (fields : List (String × Json)) : Json

/-- First binding of a key in a JavaScript object's field list. -/
def jsLookup : List (String × Json) → String → Option Json
  | [], _ => none
  | (k, v) :: rest, key => if k == key then some v else jsLookup rest key

/-- Property access `j[key]`; `none` (undefined) when `j` is not an object
or lacks the key. -/
def Json.get : Json → String → Option Json
  | Json.obj fields, key => jsLookup fields key
  | _, _ => none

/-- JavaScript truthiness of a JSON value. -/
def jsTruthy : Json → Bool
  | Json.null => false
  | Json.bool b => b
  | Json.num n => n != 0
  | Json.str s => s != ""
  | Json.arr _ => true
  | Json.obj _ => true

/-- Truthiness of an optional numeric field: undefined and `0` are falsy in
JavaScript, as in `if (token.created_at)` in `OAuthTokenManager.ts`. -/
def optIntTruthy : Option Int → Bool
  | none => false
  | some v => v != 0

/-- Truthiness of an optional string field: undefined and the empty string
are falsy, as in `if (existingToken.refresh_token)`. -/
def optStrTruthy : Option String → Bool
  | none => false
  | some s => s != ""

/-- JavaScript `x || d` on an optional number: undefined and `0` both fall
back to the default, as in `(options.expirationBufferMinutes || 5)`. -/
def jsOrInt (o : Option Int) (d : Int) : Int :=
  match o with
  | none => d
  | some v => if v == 0 then d else v

/-- The `OAuthToken` interface of `OAuthTokenManager.ts` (lines 15-21). -/
structure OAuthToken where
  access_token : String
  refresh_token : Option String
  expires_in : Int
  token_type : String
  scope : Option String
deriving DecidableEq

/-- The `StoredOAuthToken` interface (lines 23-26): a token plus the locally
computed `expires_at` and `created_at` epoch-millisecond timestamps. -/
structure StoredOAuthToken extends OAuthToken where
  expires_at : Option Int
  created_at : Option Int
deriving DecidableEq

/-- The `TokenManagerOptions` interface (lines 34-39); `tokenDirectory` and
path handling are outside this pure model. -/
structure TokenManagerOptions where
  tokenFileName : Option String
  expirationBufferMinutes : Option Int
  maxTokenLifetimeHours : Option Int

/-- State computed by the `OAuthTokenManager` constructor: the expiration
buffer and optional maximum token lifetime, both in milliseconds. -/
structure Manager where
  expirationBuffer : Int
  maxTokenLifetime : Option Int
deriving DecidableEq

/-- The `OAuthTokenManager` constructor (lines 46-54): the buffer defaults to
five minutes via `||` (so an explicit 0 is replaced), and a falsy
`maxTokenLifetimeHours` leaves `maxTokenLifetime` undefined via `?:`. -/
def mkManager (opts : TokenManagerOptions) : Manager :=
  { expirationBuffer := jsOrInt opts.expirationBufferMinutes 5 * 60 * 1000
  , maxTokenLifetime :=
      match opts.maxTokenLifetimeHours with
      | none => none
      | some h => if h == 0 then none else some (h * 60 * 60 * 1000) }

/-- The `isTokenExpired` method (lines 82-100): a falsy `expires_at` is
expired; otherwise the token is expired when the custom maximum-lifetime
check fires (guarded by truthiness of `maxTokenLifetime` and `created_at`)
or when `now >= expires_at - buffer`. -/
def isTokenExpired (mgr : Manager) (tok : StoredOAuthToken) (now : Int) : Bool :=
  if optIntTruthy tok.expires_at = false then
    true
  else
    (optIntTruthy mgr.maxTokenLifetime && optIntTruthy tok.created_at &&
      decide (now ≥ tok.created_at.getD 0 + mgr.maxTokenLifetime.getD 0 - mgr.expirationBuffer))
    || decide (now ≥ tok.expires_at.getD 0 - mgr.expirationBuffer)

/-- The `saveToken` method's record computation (lines 114-129): expiry is
`now + expires_in*1000`, capped by `now + maxTokenLifetime` when that field
is truthy; the stored record carries `created_at = now`. -/
def saveToken (mgr : Manager) (tok : OAuthToken) (now : Int) : StoredOAuthToken :=
  let expiresAt : Int :=
    if optIntTruthy mgr.maxTokenLifetime then
      min (now + tok.expires_in * 1000) (now + mgr.maxTokenLifetime.getD 0)
    else
      now + tok.expires_in * 1000
  { toOAuthToken := tok, created_at := some now, expires_at := some expiresAt }

/-- The persistence effect of `saveToken` (line 137): `writeFileSync`
replaces the file's entire content, so the new store state is independent of
the prior one. -/
def saveStep (mgr : Manager) (tok : OAuthToken) (now : Int)
    (_prior : Option StoredOAuthToken) : Option StoredOAuthToken :=
  some (saveToken mgr tok now)

/-- Outcome of the network exchange performed by `refreshToken`
(lines 152-182): a parsed response on HTTP success, an HTTP error status, or
a transport error raised by `fetch`. -/
inductive RefreshOutcome where
  | httpOk (t : OAuthToken) : RefreshOutcome
  | httpError : RefreshOutcome
  | transportError : RefreshOutcome
deriving DecidableEq

/-- The `refreshToken` method (lines 152-182): non-ok responses return null
after logging, and thrown transport errors are caught and return null. -/
def refreshTokenModel : RefreshOutcome → Option OAuthToken
  | RefreshOutcome.httpOk t => some t
  | RefreshOutcome.httpError => none
  | RefreshOutcome.transportError => none

/-- A write effect on the token store; `getValidToken` only ever saves, never
deletes (deletion exists only as the separate `deleteStoredToken`). -/
inductive StoreEffect where
  | save (t : StoredOAuthToken) : StoreEffect
  | delete : StoreEffect
deriving DecidableEq

/-- Result of `getValidToken`: the returned value and the ordered list of
store writes it performed. -/
structure GVTResult where
  result : Option StoredOAuthToken
  effects : List StoreEffect
deriving DecidableEq

/-- A freshly parsed `OAuthToken` viewed as the return value of
`getValidToken`: it carries no local metadata fields. -/
def asStored (t : OAuthToken) : StoredOAuthToken :=
  { toOAuthToken := t, expires_at := none, created_at := none }

/-- The `getValidToken` method (lines 188-222). Inputs: the stored token read
at entry, the outcome the refresh exchange would have, the optional
authentication callback together with its result, and the current time. A
non-expired token is returned with no write; an expired token with a truthy
refresh token triggers the refresh exchange, whose successful response has
the prior refresh token carried forward when its own is falsy and is then
saved; every failure falls through to the callback, and absent that, to
`none`. -/
def getValidToken (mgr : Manager) (stored : Option StoredOAuthToken)
    (outcome : RefreshOutcome) (authCb : Option (Option OAuthToken)) (now : Int) : GVTResult :=
  let fallback : GVTResult :=
    match authCb with
    | some (some newTok) =>
        { result := some (asStored newTok)
        , effects := [StoreEffect.save (saveToken mgr newTok now)] }
    | some none => { result := none, effects := [] }
    | none => { result := none, effects := [] }
  match stored with
  | none => fallback
  | some existing =>
    if isTokenExpired mgr existing now = false then
      { result := some existing, effects := [] }
    else if optStrTruthy existing.refresh_token then
      match refreshTokenModel outcome with
      | some refreshed =>
          let carried : OAuthToken :=
            if (!optStrTruthy refreshed.refresh_token) && optStrTruthy existing.refresh_token then
              { refreshed with refresh_token := existing.refresh_token }
            else
              refreshed
          { result := some (asStored carried)
          , effects := [StoreEffect.save (saveToken mgr carried now)] }
      | none => fallback
    else fallback

/-- The prompt values accepted by `OAuthGetTokenOptions.prompt`
(line 270). -/
inductive PromptKind where
  | promptNone : PromptKind
  | consent : PromptKind
  | selectAccount : PromptKind
deriving DecidableEq

/-- The options accepted by `authenticateOAuth` (lines 533-544), restricted
to the fields that flow into the interactive-flow options. -/
structure OrchestratorOptions where
  scope : String
  credentialsKey : Option String
  timeoutSeconds : Option Int
  includeOfflineAccess : Option Bool
  maxTokenLifetimeHours : Option Int
  loginHint : Option String
  prompt : Option PromptKind
deriving DecidableEq

/-- Line 599: `options.includeOfflineAccess !== false` — offline access is
wanted unless explicitly disabled. -/
def wantOfflineAccess (o : Option Bool) : Bool :=
  match o with
  | some false => false
  | _ => true

/-- The `OAuthGetTokenOptions` passed to the interactive flow (lines
625-632), restricted to the pure fields. -/
structure OAuthGetTokenOptions where
  scope : String
  timeoutSeconds : Int
  includeOfflineAccess : Bool
  loginHint : Option String
  prompt : Option PromptKind
deriving DecidableEq

/-- The authentication-callback body of `authenticateOAuth` (lines 608-632):
a caller-specified prompt is used as-is; otherwise, when offline access is
wanted and the token stored at callback time is absent or has a falsy
refresh token, the prompt is forced to consent. -/
def orchAuthOptions (opts : OrchestratorOptions)
    (storedAtCb : Option StoredOAuthToken) : OAuthGetTokenOptions :=
  let wantOffline := wantOfflineAccess opts.includeOfflineAccess
  let effectivePrompt : Option PromptKind :=
    match opts.prompt with
    | some p => some p
    | none =>
      if wantOffline then
        match storedAtCb with
        | none => some PromptKind.consent
        | some t => if optStrTruthy t.refresh_token then none else some PromptKind.consent
      else none
  { scope := opts.scope
  , timeoutSeconds := jsOrInt opts.timeoutSeconds 300
  , includeOfflineAccess := wantOffline
  , loginHint := opts.loginHint
  , prompt := effectivePrompt }

/-- Outcome of reading and parsing a JSON file: the file may be missing, the
read may raise, the content may be malformed JSON, or a value is parsed. -/
inductive FileRead where
  | missing : FileRead
  | ioError : FileRead
  | badSyntax : FileRead
  | ok (j : Json) : FileRead

/-- Evaluation of `!c.client_id || !c.client_secret || !c.auth_uri ||
!c.token_uri` style validation: accessing a property of undefined or null
throws a TypeError (`Except.error`); otherwise the four required fields are
tested for truthiness. -/
def hasAllCredFields (c : Json) : Bool :=
  ((Json.get c "client_id").map jsTruthy).getD false &&
  ((Json.get c "client_secret").map jsTruthy).getD false &&
  ((Json.get c "auth_uri").map jsTruthy).getD false &&
  ((Json.get c "token_uri").map jsTruthy).getD false

/-- Field validation including the JavaScript TypeError raised when the
credentials value itself is undefined or null. -/
def validateCreds : Option Json → Except Unit Bool
  | none => Except.error ()
  | some Json.null => Except.error ()
  | some c => Except.ok (hasAllCredFields c)

/-- The static `loadCredentialsFromFile` (lines 288-310): a missing file,
read error or parse error yields null; a truthy key selects that property
(`credentialsKey ? json[credentialsKey] : json`), otherwise the parsed value
is used flat — there is no auto-detection here; any validation failure or
thrown TypeError is caught and yields null. -/
def loadCredentialsFromFile (f : FileRead) (key : Option String) : Option Json :=
  match f with
  | FileRead.missing => none
  | FileRead.ioError => none
  | FileRead.badSyntax => none
  | FileRead.ok j =>
    let creds : Option Json :=
      if optStrTruthy key then Json.get j (key.getD "") else some j
    match validateCreds creds with
    | Except.error _ => none
    | Except.ok false => none
    | Except.ok true => creds

/-- Membership test `k in obj` on a JavaScript object's fields. -/
def hasKey (fields : List (String × Json)) (k : String) : Bool :=
  (jsLookup fields k).isSome

/-- Credential selection for an in-memory object in `authenticateOAuth`
(lines 560-572): a truthy key present in the object wins, then the
auto-detected `installed` and `web` keys, then the object itself. -/
def resolveCredentialsObj (fields : List (String × Json)) (key : Option String) : Json :=
  if optStrTruthy key && hasKey fields (key.getD "") then
    (jsLookup fields (key.getD "")).getD Json.null
  else if hasKey fields "installed" then
    (jsLookup fields "installed").getD Json.null
  else if hasKey fields "web" then
    (jsLookup fields "web").getD Json.null
  else
    Json.obj fields

/-- The two credential input shapes `authenticateOAuth` distinguishes: a file
path (with its read outcome) or an in-memory object. -/
inductive CredInput where
  | filePath (f : FileRead) : CredInput
  | objData (fields : List (String × Json)) : CredInput

/-- Credential resolution and validation in `authenticateOAuth`
(lines 546-578): file paths load through `loadCredentialsFromFile` (which
catches everything), while the object branch validates the selected value
directly, so a null nested value makes the field access throw out of the
function. -/
def orchestratorLoadCreds (input : CredInput) (key : Option String) :
    Except Unit (Option Json) :=
  match input with
  | CredInput.filePath f => Except.ok (loadCredentialsFromFile f key)
  | CredInput.objData fields =>
    let c := resolveCredentialsObj fields key
    match validateCreds (some c) with
    | Except.error _ => Except.error ()
    | Except.ok false => Except.ok none
    | Except.ok true => Except.ok (some c)

/-- Modelled from the claim's words, for comparison: loading that descends
into a given key, otherwise auto-detects the common nesting keys `installed`
then `web` for every source before falling back to flat credentials, and
validates the four required fields. -/
def claimLoadCredentials (j : Json) (key : Option String) : Option Json :=
  let c : Option Json :=
    match key with
    | some k => Json.get j k
    | none =>
      match Json.get j "installed" with
      | some v => some v
      | none =>
        match Json.get j "web" with
        | some v => some v
        | none => some j
  match c with
  | none => none
  | some v => if hasAllCredFields v then some v else none

/-- Credential selection for an object source as the amended claim words it:
a non-empty key is consulted first and used when present; otherwise the
nesting keys `installed` then `web` are auto-detected; otherwise the object
itself is the credentials value. -/
def amendedObjSelect (fields : List (String × Json)) (key : Option String) : Json :=
  let autodetected : Json :=
    match jsLookup fields "installed" with
    | some v => v
    | none =>
      match jsLookup fields "web" with
      | some v => v
      | none => Json.obj fields
  match key with
  | some k =>
    if k != "" then
      match jsLookup fields k with
      | some v => v
      | none => autodetected
    else autodetected
  | none => autodetected

/-- Modelled from the amended claim: a non-empty key descends into that
property (unconditionally for a file source, only when present for an object
source); auto-detection of `installed` then `web` applies only to object
sources, a file source falling back directly to flat; loading reports
absence rather than throwing whenever a required field is missing or empty,
except that an object source whose selected credentials value is null raises
the field-access error. -/
def amendedLoadCreds (input : CredInput) (key : Option String) :
    Except Unit (Option Json) :=
  match input with
  | CredInput.filePath FileRead.missing => Except.ok none
  | CredInput.filePath FileRead.ioError => Except.ok none
  | CredInput.filePath FileRead.badSyntax => Except.ok none
  | CredInput.filePath (FileRead.ok j) =>
    let selected : Option Json :=
      if optStrTruthy key then Json.get j (key.getD "") else some j
    match selected with
    | none => Except.ok none
    | some Json.null => Except.ok none
    | some v => Except.ok (if hasAllCredFields v then some v else none)
  | CredInput.objData fields =>
    match amendedObjSelect fields key with
    | Json.null => Except.error ()
    | v => Except.ok (if hasAllCredFields v then some v else none)

/-- Events that can reach the waiting promise in `waitForOAuthCallback`
(lines 338-408), in arrival order: the timeout timer firing, the abort
signal, or an HTTP request carrying optional `code` and `error` query
parameters. -/
inductive CallbackEvent where
  | timeoutFired : CallbackEvent
  | abortSignalled : CallbackEvent
  | request (code : Option String) (error : Option String) : CallbackEvent
deriving DecidableEq

/-- First-settlement semantics of the promise in `waitForOAuthCallback`: the
timeout resolves null; the abort handler (installed only when a signal was
supplied) resolves null; a request with a truthy code resolves that code; a
request with a truthy error resolves null; any other request falls through
without settling. Returns `none` while nothing has settled. -/
def waitResolve (hasSignal : Bool) : List CallbackEvent → Option (Option String)
  | [] => none
  | e :: rest =>
    match e with
    | CallbackEvent.timeoutFired => some none
    | CallbackEvent.abortSignalled =>
        if hasSignal then some none else waitResolve hasSignal rest
    | CallbackEvent.request c err =>
        if optStrTruthy c then some c
        else if optStrTruthy err then some none
        else waitResolve hasSignal rest

/-- A complete run of `waitForOAuthCallback`: the timeout timer is always
armed, so if no listed event settles the promise the timeout eventually
does. -/
def waitForOAuthCallbackRun (hasSignal : Bool) (events : List CallbackEvent) :
    Option String :=
  (waitResolve hasSignal (events ++ [CallbackEvent.timeoutFired])).getD none

/-- Whether `startLocalOAuthServer` (lines 315-333) resolved with a listening
server or rejected with a bind error. -/
inductive StartOutcome where
  | started : StartOutcome
  | bindError : StartOutcome
deriving DecidableEq

/-- Outcome of the authorization-code exchange request (lines 497-517). -/
inductive ExchangeOutcome where
  | httpOk (t : OAuthToken) : ExchangeOutcome
  | httpError : ExchangeOutcome
  | transportError : ExchangeOutcome
deriving DecidableEq

/-- The code-exchange step of `getToken`: non-ok statuses throw and are
caught, transport errors are caught; both yield null. -/
def exchangeModel : ExchangeOutcome → Option OAuthToken
  | ExchangeOutcome.httpOk t => some t
  | ExchangeOutcome.httpError => none
  | ExchangeOutcome.transportError => none

/-- Observable outcome of one `getToken` call: its return value, whether the
local listener ever started, and whether it was closed before return. -/
structure GetTokenResult where
  result : Option OAuthToken
  listenerStarted : Bool
  listenerClosed : Bool
deriving DecidableEq

/-- The `getToken` method's control flow (lines 434-518): a bind failure is
caught and returns null with the listener never having started (the finally
block's `if (server!)` guard skips close); otherwise the callback wait runs
to settlement, the finally block closes the server, and a missing code or a
failed exchange returns null while a successful exchange returns the parsed
token. -/
def getTokenFlow (start : StartOutcome) (hasSignal : Bool)
    (events : List CallbackEvent) (exchange : ExchangeOutcome) : GetTokenResult :=
  match start with
  | StartOutcome.bindError =>
      { result := none, listenerStarted := false, listenerClosed := false }
  | StartOutcome.started =>
    match waitForOAuthCallbackRun hasSignal events with
    | none => { result := none, listenerStarted := true, listenerClosed := true }
    | some _ =>
      match exchangeModel exchange with
      | some t => { result := some t, listenerStarted := true, listenerClosed := true }
      | none => { result := none, listenerStarted := true, listenerClosed := true }

/-- String extraction from an optional JSON field. -/
def jsonAsStr : Option Json → Option String
  | some (Json.str s) => some s
  | _ => none

/-- Integer extraction from an optional JSON field. -/
def jsonAsInt : Option Json → Option Int
  | some (Json.num n) => some n
  | _ => none

/-- The `as StoredOAuthToken` cast in `getStoredToken`: the parsed JSON value
reinterpreted through the typed field accessors. -/
def decodeStoredToken (j : Json) : StoredOAuthToken :=
  { access_token := (jsonAsStr (Json.get j "access_token")).getD ""
  , refresh_token := jsonAsStr (Json.get j "refresh_token")
  , expires_in := (jsonAsInt (Json.get j "expires_in")).getD 0
  , token_type := (jsonAsStr (Json.get j "token_type")).getD ""
  , scope := jsonAsStr (Json.get j "scope")
  , expires_at := jsonAsInt (Json.get j "expires_at")
  , created_at := jsonAsInt (Json.get j "created_at") }

/-- The `getStoredToken` method (lines 66-79): a missing file returns null
before any read; read and parse errors are caught and return null; the
content `null` parses to the null value, which is returned as-is and is
indistinguishable from absence for every caller. -/
def getStoredToken (f : FileRead) : Option StoredOAuthToken :=
  match f with
  | FileRead.missing => none
  | FileRead.ioError => none
  | FileRead.badSyntax => none
  | FileRead.ok Json.null => none
  | FileRead.ok j => some (decodeStoredToken j)

/-- Modelled from the claim's words, for comparison: `isExpired` that treats
`expires_at` as expired only when unset, and applies the max-lifetime check
whenever the policy is configured and `created_at` is present. -/
def claimIsExpired (mgr : Manager) (tok : StoredOAuthToken) (now : Int) : Bool :=
  match tok.expires_at with
  | none => true
  | some e =>
    decide (now ≥ e - mgr.expirationBuffer) ||
    (match mgr.maxTokenLifetime, tok.created_at with
     | some m, some c => decide (now ≥ c + m - mgr.expirationBuffer)
     | _, _ => false)

/-- Helper: a manager built by the constructor has a max lifetime that is
either absent or a nonzero number of milliseconds. -/
theorem mkManager_max_char (opts : TokenManagerOptions) (m : Int)
    (h : (mkManager opts).maxTokenLifetime = some m) :
    ∃ hrs, opts.maxTokenLifetimeHours = some hrs ∧ hrs ≠ 0 ∧ m = hrs * 60 * 60 * 1000 := by
  unfold mkManager at h
  simp only at h
  cases hh : opts.maxTokenLifetimeHours with
  | none => rw [hh] at h; simp at h
  | some hrs =>
    rw [hh] at h
    by_cases h0 : hrs = 0
    · simp [h0] at h
    · simp [h0] at h
      exact ⟨hrs, rfl, h0, h.symm⟩

/-- Modelled from the claim's words, for comparison: the `expires_at` a save
should record — `created_at + min(expires_in*1000, H*3600*1000)` whenever a
max-lifetime of `H` hours is configured, and `created_at + expires_in*1000`
when none is. -/
def claimSaveExpiresAt (opts : TokenManagerOptions) (tok : OAuthToken)
    (createdAt : Int) : Int :=
  match opts.maxTokenLifetimeHours with
  | some hrs => createdAt + min (tok.expires_in * 1000) (hrs * 3600 * 1000)
  | none => createdAt + tok.expires_in * 1000

/-- Counterexample for C1: with `maxTokenLifetimeHours` configured as 0, the
constructor's `options.maxTokenLifetimeHours ? ... : undefined` treats 0 as
falsy and drops the cap, so saving a token with `expires_in = 3600` at time
100 stores `expires_at = 3600100`, while the claim's formula demands
`created_at + min(3600*1000, 0*3600*1000) = 100`. -/
theorem saveToken_max_zero_cex :
    saveStep
        (mkManager { tokenFileName := none, expirationBufferMinutes := none
                   , maxTokenLifetimeHours := some 0 })
        { access_token := "a", refresh_token := none, expires_in := 3600
        , token_type := "Bearer", scope := none } 100 none =
      some { access_token := "a", refresh_token := none, expires_in := 3600
           , token_type := "Bearer", scope := none, created_at := some 100
           , expires_at := some 3600100 }
    ∧ claimSaveExpiresAt
        { tokenFileName := none, expirationBufferMinutes := none
        , maxTokenLifetimeHours := some 0 }
        { access_token := "a", refresh_token := none, expires_in := 3600
        , token_type := "Bearer", scope := none } 100 = 100 := by
  constructor <;> decide

/-- C1 as amended: save stores a record whose `expires_at` equals
`created_at + min(expires_in*1000, maxTokenLifetimeHours*3600*1000)` when a
nonzero max-lifetime is configured, and `created_at + expires_in*1000` when
it is unset or zero (a zero max lifetime is falsy and discarded by the
constructor); `created_at` is the save time and the prior content is fully
replaced (the new store state is independent of the prior record). -/
theorem saveToken_expiry_amended (opts : TokenManagerOptions) (tok : OAuthToken)
    (now : Int) (prior : Option StoredOAuthToken) :
    (∀ hrs, opts.maxTokenLifetimeHours = some hrs → hrs ≠ 0 →
      saveStep (mkManager opts) tok now prior =
        some { toOAuthToken := tok, created_at := some now
             , expires_at := some (now + min (tok.expires_in * 1000) (hrs * 3600 * 1000)) })
    ∧ (opts.maxTokenLifetimeHours = none ∨ opts.maxTokenLifetimeHours = some 0 →
      saveStep (mkManager opts) tok now prior =
        some { toOAuthToken := tok, created_at := some now
             , expires_at := some (now + tok.expires_in * 1000) }) := by
  constructor
  · intro hrs hh h0
    have hm : (mkManager opts).maxTokenLifetime = some (hrs * 60 * 60 * 1000) := by
      simp [mkManager, hh, h0]
    have hne : hrs * 60 * 60 * 1000 ≠ 0 := by
      intro hz
      omega
    simp only [saveStep, saveToken, hm, optIntTruthy, Option.getD_some, bne_iff_ne, ne_eq,
      hne, not_false_eq_true, if_true, Option.some.injEq]
    have : min (now + tok.expires_in * 1000) (now + hrs * 60 * 60 * 1000) =
        now + min (tok.expires_in * 1000) (hrs * 3600 * 1000) := by
      have h60 : hrs * 60 * 60 * 1000 = hrs * 3600 * 1000 := by ring
      rw [h60]
      omega
    rw [this]
  · intro hh
    have hm : (mkManager opts).maxTokenLifetime = none := by
      rcases hh with h | h <;> simp [mkManager, h]
    simp [saveStep, saveToken, hm, optIntTruthy]

/-- Witness for C1's amended theorem: a concrete save under a two-hour
policy. -/
theorem saveToken_expiry_amended_witness :
    saveStep
        (mkManager { tokenFileName := none, expirationBufferMinutes := none
                   , maxTokenLifetimeHours := some 2 })
        { access_token := "a", refresh_token := none, expires_in := 3600
        , token_type := "Bearer", scope := none } 100 none =
      some { access_token := "a", refresh_token := none, expires_in := 3600
           , token_type := "Bearer", scope := none, created_at := some 100
           , expires_at := some (100 + min (3600 * 1000) (2 * 3600 * 1000)) } :=
  (saveToken_expiry_amended
      { tokenFileName := none, expirationBufferMinutes := none
      , maxTokenLifetimeHours := some 2 }
      { access_token := "a", refresh_token := none, expires_in := 3600
      , token_type := "Bearer", scope := none } 100 none).1 2 rfl (by decide)

/-- C3: when the stored token is expired and carries a (truthy) refresh
token, and the refresh exchange succeeds with a response that has no refresh
token, the returned token and the single saved record both retain the prior
stored refresh token. -/
theorem getValidToken_refresh_carry (mgr : Manager) (existing : StoredOAuthToken)
    (rt : String) (resp : OAuthToken) (authCb : Option (Option OAuthToken)) (now : Int)
    (hrt : existing.refresh_token = some rt) (hne : rt ≠ "")
    (hexp : isTokenExpired mgr existing now = true)
    (hresp : resp.refresh_token = none) :
    getValidToken mgr (some existing) (RefreshOutcome.httpOk resp) authCb now =
      { result := some (asStored { resp with refresh_token := some rt })
      , effects := [StoreEffect.save (saveToken mgr { resp with refresh_token := some rt } now)] } := by
  simp [getValidToken, hexp, hrt, optStrTruthy, hne, refreshTokenModel, hresp]

/-- Witness for C3: a concrete expired token whose refresh response omits the
refresh token; the prior refresh token survives in the result and the save. -/
theorem getValidToken_refresh_carry_witness :
    getValidToken { expirationBuffer := 300000, maxTokenLifetime := none }
        (some { access_token := "old", refresh_token := some "keepme", expires_in := 3600
              , token_type := "Bearer", scope := none
              , expires_at := some 1000, created_at := some 0 })
        (RefreshOutcome.httpOk
          { access_token := "new", refresh_token := none, expires_in := 3600
          , token_type := "Bearer", scope := none })
        none 500000 =
      { result := some (asStored
          { access_token := "new", refresh_token := some "keepme", expires_in := 3600
          , token_type := "Bearer", scope := none })
      , effects := [StoreEffect.save
          (saveToken { expirationBuffer := 300000, maxTokenLifetime := none }
            { access_token := "new", refresh_token := some "keepme", expires_in := 3600
            , token_type := "Bearer", scope := none } 500000)] } :=
  getValidToken_refresh_carry
    { expirationBuffer := 300000, maxTokenLifetime := none }
    { access_token := "old", refresh_token := some "keepme", expires_in := 3600
    , token_type := "Bearer", scope := none
    , expires_at := some 1000, created_at := some 0 }
    "keepme"
    { access_token := "new", refresh_token := none, expires_in := 3600
    , token_type := "Bearer", scope := none }
    none 500000 rfl (by decide) (by decide) rfl

/-- C4: when the stored token is not expired, `getValidToken` returns it
unchanged and performs no store write, whatever the refresh outcome and
callback would have been. -/
theorem getValidToken_valid_noop (mgr : Manager) (existing : StoredOAuthToken)
    (outcome : RefreshOutcome) (authCb : Option (Option OAuthToken)) (now : Int)
    (hval : isTokenExpired mgr existing now = false) :
    getValidToken mgr (some existing) outcome authCb now =
      { result := some existing, effects := [] } := by
  simp [getValidToken, hval]

/-- Witness for C4: a concrete non-expired token is returned unchanged with
no effects. -/
theorem getValidToken_valid_noop_witness :
    getValidToken { expirationBuffer := 300000, maxTokenLifetime := none }
        (some { access_token := "tok", refresh_token := some "r", expires_in := 3600
              , token_type := "Bearer", scope := none
              , expires_at := some 10000000, created_at := some 0 })
        RefreshOutcome.httpError (some (some
          { access_token := "other", refresh_token := none, expires_in := 1
          , token_type := "Bearer", scope := none })) 0 =
      { result := some { access_token := "tok", refresh_token := some "r", expires_in := 3600
                       , token_type := "Bearer", scope := none
                       , expires_at := some 10000000, created_at := some 0 }
      , effects := [] } :=
  getValidToken_valid_noop
    { expirationBuffer := 300000, maxTokenLifetime := none }
    { access_token := "tok", refresh_token := some "r", expires_in := 3600
    , token_type := "Bearer", scope := none
    , expires_at := some 10000000, created_at := some 0 }
    RefreshOutcome.httpError
    (some (some { access_token := "other", refresh_token := none, expires_in := 1
                , token_type := "Bearer", scope := none })) 0 (by decide)

/-- C5: when the stored token is expired, the refresh exchange fails with a
non-success HTTP status or a transport error, and no authentication callback
is supplied, `getValidToken` returns the absent value with no store write;
the embedding is a total function, reflecting that both failure modes are
caught inside `refreshToken` and never escape. -/
theorem getValidToken_refresh_fail_absent (mgr : Manager)
    (existing : StoredOAuthToken) (outcome : RefreshOutcome) (now : Int)
    (hexp : isTokenExpired mgr existing now = true)
    (hfail : outcome = RefreshOutcome.httpError ∨ outcome = RefreshOutcome.transportError) :
    getValidToken mgr (some existing) outcome none now =
      { result := none, effects := [] } := by
  have hout : refreshTokenModel outcome = none := by
    rcases hfail with h | h <;> rw [h] <;> rfl
  cases h : optStrTruthy existing.refresh_token <;>
    simp [getValidToken, hexp, h, hout]

/-- Witness for C5: a concrete expired token whose refresh exchange returns a
non-2xx status, with no callback, yields absent and no write. -/
theorem getValidToken_refresh_fail_absent_witness :
    getValidToken { expirationBuffer := 300000, maxTokenLifetime := none }
        (some { access_token := "old", refresh_token := some "r", expires_in := 3600
              , token_type := "Bearer", scope := none
              , expires_at := some 1000, created_at := some 0 })
        RefreshOutcome.httpError none 500000 =
      { result := none, effects := [] } :=
  getValidToken_refresh_fail_absent
    { expirationBuffer := 300000, maxTokenLifetime := none }
    { access_token := "old", refresh_token := some "r", expires_in := 3600
    , token_type := "Bearer", scope := none
    , expires_at := some 1000, created_at := some 0 }
    RefreshOutcome.httpError 500000 (by decide) (Or.inl rfl)

/-- Counterexample for C2: with a one-hour max-lifetime policy and a stored
token whose `created_at` is present but equal to 0, the code skips the
max-lifetime check (0 is falsy in `if (this.maxTokenLifetime &&
token.created_at)`) and reports the token as not expired, while the claim's
reading, with `created_at` merely present, reports it expired. -/
theorem isTokenExpired_created_at_zero_cex :
    isTokenExpired
        (mkManager { tokenFileName := none, expirationBufferMinutes := none
                   , maxTokenLifetimeHours := some 1 })
        { access_token := "a", refresh_token := none, expires_in := 3600
        , token_type := "Bearer", scope := none
        , expires_at := some 1000000000000, created_at := some 0 }
        1000000000 = false
    ∧ claimIsExpired
        (mkManager { tokenFileName := none, expirationBufferMinutes := none
                   , maxTokenLifetimeHours := some 1 })
        { access_token := "a", refresh_token := none, expires_in := 3600
        , token_type := "Bearer", scope := none
        , expires_at := some 1000000000000, created_at := some 0 }
        1000000000 = true := by
  constructor <;> decide

/-- C2 as amended: for a constructor-built manager, a nonnegative clock and a
nonnegative buffer, `isExpired` is true when `expires_at` is unset; otherwise
it is true exactly when `now >= expires_at - buffer`, or the max-lifetime
policy is configured, `created_at` is present and nonzero, and
`now >= created_at + maxLifetimeMillis - buffer`; and with no max-lifetime
policy it is false whenever `now < expires_at - buffer`. -/
theorem isTokenExpired_spec (opts : TokenManagerOptions) (tok : StoredOAuthToken)
    (now : Int) (hnow : 0 ≤ now)
    (hbuf : 0 ≤ (mkManager opts).expirationBuffer) :
    (tok.expires_at = none → isTokenExpired (mkManager opts) tok now = true)
    ∧ (∀ e, tok.expires_at = some e →
        (isTokenExpired (mkManager opts) tok now = true ↔
          (now ≥ e - (mkManager opts).expirationBuffer ∨
            ∃ m c, (mkManager opts).maxTokenLifetime = some m ∧
              tok.created_at = some c ∧ c ≠ 0 ∧
              now ≥ c + m - (mkManager opts).expirationBuffer)))
    ∧ ((mkManager opts).maxTokenLifetime = none → ∀ e, tok.expires_at = some e →
        now < e - (mkManager opts).expirationBuffer →
        isTokenExpired (mkManager opts) tok now = false) := by
  refine ⟨?_, ?_, ?_⟩
  · intro he
    simp [isTokenExpired, he, optIntTruthy]
  · intro e he
    by_cases he0 : e = 0
    · subst he0
      have hcode : isTokenExpired (mkManager opts) tok now = true := by
        simp [isTokenExpired, he, optIntTruthy]
      rw [hcode]
      simp only [true_iff]
      exact Or.inl (by omega)
    · have htr : optIntTruthy tok.expires_at = true := by
        simp [he, optIntTruthy, he0]
      have hunf : isTokenExpired (mkManager opts) tok now =
          ((optIntTruthy (mkManager opts).maxTokenLifetime && optIntTruthy tok.created_at &&
              decide (now ≥ tok.created_at.getD 0 + (mkManager opts).maxTokenLifetime.getD 0 -
                (mkManager opts).expirationBuffer))
            || decide (now ≥ tok.expires_at.getD 0 - (mkManager opts).expirationBuffer)) := by
        unfold isTokenExpired
        rw [htr]
        simp
      rw [hunf, he]
      cases hmv : (mkManager opts).maxTokenLifetime with
      | none =>
        simp [optIntTruthy]
      | some m =>
        have hm0 : m ≠ 0 := by
          obtain ⟨hrs, _, hhne, hmval⟩ := mkManager_max_char opts m hmv
          subst hmval
          intro hz
          omega
        cases hcv : tok.created_at with
        | none =>
          simp [optIntTruthy]
        | some c =>
          simp only [optIntTruthy, Option.getD_some, Bool.or_eq_true, Bool.and_eq_true,
            bne_iff_ne, ne_eq, decide_eq_true_eq, Option.some.injEq, ge_iff_le]
          constructor
          · intro h
            rcases h with ⟨⟨hmne, hcne⟩, hge⟩ | hge
            · exact Or.inr ⟨m, c, rfl, rfl, hcne, hge⟩
            · exact Or.inl hge
          · intro h
            rcases h with hge | ⟨m2, c2, hm2, hc2, hc2ne, hge⟩
            · exact Or.inr hge
            · cases hm2
              cases hc2
              exact Or.inl ⟨⟨hm0, hc2ne⟩, hge⟩
  · intro hm e he hlt
    by_cases he0 : e = 0
    · subst he0
      omega
    · simp [isTokenExpired, he, optIntTruthy, he0, hm]
      omega

/-- Witness for C2's amended theorem: a concrete expired token under a
one-hour policy, with `now` past `expires_at - buffer`. -/
theorem isTokenExpired_spec_witness :
    isTokenExpired
        (mkManager { tokenFileName := none, expirationBufferMinutes := none
                   , maxTokenLifetimeHours := some 1 })
        { access_token := "a", refresh_token := none, expires_in := 3600
        , token_type := "Bearer", scope := none
        , expires_at := some 1000, created_at := some 500 }
        1000 = true :=
  ((isTokenExpired_spec
      { tokenFileName := none, expirationBufferMinutes := none
      , maxTokenLifetimeHours := some 1 }
      { access_token := "a", refresh_token := none, expires_in := 3600
      , token_type := "Bearer", scope := none
      , expires_at := some 1000, created_at := some 500 }
      1000 (by decide) (by decide)).2.1 1000 rfl).mpr (Or.inl (by decide))

/-- C9: `getStoredToken` yields absent on a missing file, an unreadable file,
and malformed JSON content — the read and parse errors are caught and never
escape — and any present result can only come from successfully parsed
content. -/
theorem getStoredToken_degrades :
    getStoredToken FileRead.missing = none
    ∧ getStoredToken FileRead.ioError = none
    ∧ getStoredToken FileRead.badSyntax = none
    ∧ ∀ f r, getStoredToken f = some r → ∃ j, f = FileRead.ok j := by
  refine ⟨rfl, rfl, rfl, ?_⟩
  intro f r h
  cases f with
  | missing => simp [getStoredToken] at h
  | ioError => simp [getStoredToken] at h
  | badSyntax => simp [getStoredToken] at h
  | ok j => exact ⟨j, rfl⟩

/-- Witness for C9: a concrete empty-object token file parses to a present
record, which the theorem traces back to parsed content. -/
theorem getStoredToken_degrades_witness :
    ∃ j, FileRead.ok (Json.obj []) = FileRead.ok j :=
  getStoredToken_degrades.2.2.2 (FileRead.ok (Json.obj []))
    (decodeStoredToken (Json.obj [])) rfl

/-- C10: constructing a manager with `expirationBufferMinutes` explicitly 0
yields an effective buffer of five minutes, because `(0 || 5)` evaluates to
5; consequently `isExpired` reports expiry as soon as
`now >= expires_at - 300000`. -/
theorem buffer_zero_defaults_to_five (tok : StoredOAuthToken) (now e : Int)
    (he : tok.expires_at = some e) (hge : now ≥ e - 300000) :
    (mkManager { tokenFileName := none, expirationBufferMinutes := some 0
               , maxTokenLifetimeHours := none }).expirationBuffer = 300000
    ∧ isTokenExpired
        (mkManager { tokenFileName := none, expirationBufferMinutes := some 0
                   , maxTokenLifetimeHours := none }) tok now = true := by
  have hmgr : mkManager { tokenFileName := none, expirationBufferMinutes := some 0
                        , maxTokenLifetimeHours := none } =
      { expirationBuffer := 300000, maxTokenLifetime := none } := by decide
  refine ⟨by rw [hmgr], ?_⟩
  rw [hmgr]
  by_cases he0 : e = 0
  · subst he0
    simp [isTokenExpired, he, optIntTruthy]
  · simp [isTokenExpired, he, optIntTruthy, he0]
    omega

/-- Witness for C10: a concrete token expiring at 400000 is already expired
at time 100000 even though the caller asked for no buffer. -/
theorem buffer_zero_defaults_to_five_witness :
    (mkManager { tokenFileName := none, expirationBufferMinutes := some 0
               , maxTokenLifetimeHours := none }).expirationBuffer = 300000
    ∧ isTokenExpired
        (mkManager { tokenFileName := none, expirationBufferMinutes := some 0
                   , maxTokenLifetimeHours := none })
        { access_token := "a", refresh_token := none, expires_in := 3600
        , token_type := "Bearer", scope := none
        , expires_at := some 400000, created_at := some 1 }
        100000 = true :=
  buffer_zero_defaults_to_five
    { access_token := "a", refresh_token := none, expires_in := 3600
    , token_type := "Bearer", scope := none
    , expires_at := some 400000, created_at := some 1 }
    100000 400000 rfl (by decide)

/-- C6: when offline access is wanted (not explicitly disabled), the caller
gave no explicit prompt, and the token stored at callback time is absent or
lacks a refresh token, the interactive flow's options carry the consent
prompt; and a caller-specified prompt is always passed through unchanged. -/
theorem orchestrator_prompt (opts : OrchestratorOptions)
    (storedAtCb : Option StoredOAuthToken) :
    ((opts.includeOfflineAccess ≠ some false) → opts.prompt = none →
      (storedAtCb = none ∨ ∃ t, storedAtCb = some t ∧ t.refresh_token = none) →
      (orchAuthOptions opts storedAtCb).prompt = some PromptKind.consent)
    ∧ (∀ p, opts.prompt = some p → (orchAuthOptions opts storedAtCb).prompt = some p) := by
  constructor
  · intro hoff hp hst
    have hw : wantOfflineAccess opts.includeOfflineAccess = true := by
      unfold wantOfflineAccess
      cases h : opts.includeOfflineAccess with
      | none => rfl
      | some b =>
        cases b with
        | false => exact absurd h hoff
        | true => rfl
    rcases hst with h | ⟨t, ht, hrt⟩
    · simp [orchAuthOptions, hp, hw, h]
    · simp [orchAuthOptions, hp, hw, ht, hrt, optStrTruthy]
  · intro p hp
    simp [orchAuthOptions, hp]

/-- Witness for C6: all-default orchestrator options with no stored token
force the consent prompt. -/
theorem orchestrator_prompt_witness :
    (orchAuthOptions
        { scope := "s", credentialsKey := none, timeoutSeconds := none
        , includeOfflineAccess := none, maxTokenLifetimeHours := none
        , loginHint := none, prompt := none } none).prompt = some PromptKind.consent :=
  (orchestrator_prompt
      { scope := "s", credentialsKey := none, timeoutSeconds := none
      , includeOfflineAccess := none, maxTokenLifetimeHours := none
      , loginHint := none, prompt := none } none).1 (by decide) rfl (Or.inl rfl)

/-- A flat credentials object with all four required fields present and
non-empty. -/
def goodCredsJson : Json :=
  Json.obj [("client_id", Json.str "id"), ("client_secret", Json.str "sec"),
            ("auth_uri", Json.str "a"), ("token_uri", Json.str "t")]

/-- A credentials file in the common nested shape, with the real credentials
under the `installed` key. -/
def nestedCredsJson : Json := Json.obj [("installed", goodCredsJson)]

/-- Counterexample for C7: a credentials file whose content nests valid
credentials under `installed`, loaded with no key, yields absent — the file
branch never auto-detects nesting keys — while the claim's loader, which
auto-detects for every source, finds the nested credentials. -/
theorem loadCredentials_autodetect_cex :
    orchestratorLoadCreds (CredInput.filePath (FileRead.ok nestedCredsJson)) none =
      Except.ok none
    ∧ claimLoadCredentials nestedCredsJson none = some goodCredsJson := by
  constructor <;> rfl

/-- Helper: the source's object-branch credential selection agrees with the
amended claim's wording of it. -/
theorem resolveCredentialsObj_eq_amended (fields : List (String × Json))
    (key : Option String) :
    resolveCredentialsObj fields key = amendedObjSelect fields key := by
  cases key with
  | none =>
    cases h1 : jsLookup fields "installed" with
    | some v => simp [resolveCredentialsObj, amendedObjSelect, hasKey, h1, optStrTruthy]
    | none =>
      cases h2 : jsLookup fields "web" with
      | some w => simp [resolveCredentialsObj, amendedObjSelect, hasKey, h1, h2, optStrTruthy]
      | none => simp [resolveCredentialsObj, amendedObjSelect, hasKey, h1, h2, optStrTruthy]
  | some k =>
    by_cases hk : k = ""
    · subst hk
      cases h1 : jsLookup fields "installed" with
      | some v => simp [resolveCredentialsObj, amendedObjSelect, hasKey, h1, optStrTruthy]
      | none =>
        cases h2 : jsLookup fields "web" with
        | some w => simp [resolveCredentialsObj, amendedObjSelect, hasKey, h1, h2, optStrTruthy]
        | none => simp [resolveCredentialsObj, amendedObjSelect, hasKey, h1, h2, optStrTruthy]
    · cases hself : jsLookup fields k with
      | some v => simp [resolveCredentialsObj, amendedObjSelect, hasKey, hself, optStrTruthy, hk]
      | none =>
        cases h1 : jsLookup fields "installed" with
        | some v =>
          simp [resolveCredentialsObj, amendedObjSelect, hasKey, hself, h1, optStrTruthy, hk]
        | none =>
          cases h2 : jsLookup fields "web" with
          | some w =>
            simp [resolveCredentialsObj, amendedObjSelect, hasKey, hself, h1, h2, optStrTruthy, hk]
          | none =>
            simp [resolveCredentialsObj, amendedObjSelect, hasKey, hself, h1, h2, optStrTruthy, hk]

/-- C7 as amended: credential loading behaves as the amended description
says — a non-empty key descends (unconditionally for files, when present for
objects), auto-detection of `installed` and `web` applies only to object
sources, missing or empty required fields yield absent without throwing,
except that an object source selecting a null nested value propagates the
field-access error. -/
theorem loadCredentials_amended_equiv (input : CredInput) (key : Option String) :
    orchestratorLoadCreds input key = amendedLoadCreds input key := by
  cases input with
  | filePath f =>
    cases f with
    | missing => rfl
    | ioError => rfl
    | badSyntax => rfl
    | ok j =>
      show Except.ok (loadCredentialsFromFile (FileRead.ok j) key) = _
      by_cases hk : optStrTruthy key = true
      · simp only [loadCredentialsFromFile, amendedLoadCreds, hk, if_true]
        cases hg : Json.get j (key.getD "") with
        | none => rfl
        | some v =>
          cases v with
          | null => rfl
          | bool b => cases h : hasAllCredFields (Json.bool b) <;> simp [validateCreds, h]
          | num n => cases h : hasAllCredFields (Json.num n) <;> simp [validateCreds, h]
          | str s => cases h : hasAllCredFields (Json.str s) <;> simp [validateCreds, h]
          | arr xs => cases h : hasAllCredFields (Json.arr xs) <;> simp [validateCreds, h]
          | obj fs => cases h : hasAllCredFields (Json.obj fs) <;> simp [validateCreds, h]
      · have hk2 : optStrTruthy key = false := by
          cases h : optStrTruthy key
          · rfl
          · exact absurd h hk
        simp only [loadCredentialsFromFile, amendedLoadCreds, hk2, Bool.false_eq_true, if_false]
        cases j with
        | null => rfl
        | bool b => cases h : hasAllCredFields (Json.bool b) <;> simp [validateCreds, h]
        | num n => cases h : hasAllCredFields (Json.num n) <;> simp [validateCreds, h]
        | str s => cases h : hasAllCredFields (Json.str s) <;> simp [validateCreds, h]
        | arr xs => cases h : hasAllCredFields (Json.arr xs) <;> simp [validateCreds, h]
        | obj fs => cases h : hasAllCredFields (Json.obj fs) <;> simp [validateCreds, h]
  | objData fields =>
    simp only [orchestratorLoadCreds, resolveCredentialsObj_eq_amended, amendedLoadCreds]
    cases hv : amendedObjSelect fields key with
    | null => rfl
    | bool b => cases h : hasAllCredFields (Json.bool b) <;> simp [validateCreds, h]
    | num n => cases h : hasAllCredFields (Json.num n) <;> simp [validateCreds, h]
    | str s => cases h : hasAllCredFields (Json.str s) <;> simp [validateCreds, h]
    | arr xs => cases h : hasAllCredFields (Json.arr xs) <;> simp [validateCreds, h]
    | obj fs => cases h : hasAllCredFields (Json.obj fs) <;> simp [validateCreds, h]

/-- Helper: if no request event occurs, the callback promise is settled by
the timeout (or by an earlier abort) with the null outcome. -/
theorem waitResolve_no_request (hasSignal : Bool) (events : List CallbackEvent)
    (h : ∀ c err, CallbackEvent.request c err ∉ events) :
    waitResolve hasSignal (events ++ [CallbackEvent.timeoutFired]) = some none := by
  induction events with
  | nil => rfl
  | cons e rest ih =>
    have hrest : ∀ c err, CallbackEvent.request c err ∉ rest := by
      intro c err hmem
      exact h c err (List.mem_cons_of_mem e hmem)
    cases e with
    | timeoutFired => rfl
    | abortSignalled =>
      cases hasSignal with
      | true => rfl
      | false => simpa [waitResolve] using ih hrest
    | request c err => exact absurd (List.mem_cons_self _ _) (h c err)

/-- C8: when no callback request reaches the listener before the timeout (or
a cancellation), `getToken` returns the absent value, and on every exit path
on which the listener started it is closed before the call returns. -/
theorem getToken_timeout_teardown :
    (∀ hasSignal events exchange,
      (∀ c err, CallbackEvent.request c err ∉ events) →
      getTokenFlow StartOutcome.started hasSignal events exchange =
        { result := none, listenerStarted := true, listenerClosed := true })
    ∧ (∀ start hasSignal events exchange,
        (getTokenFlow start hasSignal events exchange).listenerStarted = true →
        (getTokenFlow start hasSignal events exchange).listenerClosed = true) := by
  constructor
  · intro hs events exch h
    have hw : waitForOAuthCallbackRun hs events = none := by
      unfold waitForOAuthCallbackRun
      rw [waitResolve_no_request hs events h]
      rfl
    simp [getTokenFlow, hw]
  · intro start hs events exch hstart
    cases start with
    | bindError => simp [getTokenFlow] at hstart
    | started =>
      unfold getTokenFlow
      cases waitForOAuthCallbackRun hs events with
      | none => rfl
      | some c => cases exch <;> rfl

/-- Witness for C8: a run with no events at all times out, returns absent,
and closes the listener. -/
theorem getToken_timeout_teardown_witness :
    getTokenFlow StartOutcome.started false [] ExchangeOutcome.httpError =
      { result := none, listenerStarted := true, listenerClosed := true } :=
  getToken_timeout_teardown.1 false [] ExchangeOutcome.httpError
    (fun _c _err h => absurd h (List.not_mem_nil _))

end OAuthSupport
